import Mathlib

/-!
Verification of the ShardX performance bottleneck analysis tool
(`tools/performance/bottleneck_analyzer.py`).

The Python source is shallowly embedded: every Python float is modelled as an
exact rational (`ℚ`), parsed counters (`[\d,]+` regex captures) as `ℕ`, and
fallible Python operations (true division, `min`/`max` over a possibly empty
list) run in an `Except`-style monad `PyM` so that `ZeroDivisionError` and
`ValueError` are explicit values rather than crashes.

Dict-shaped intermediate results of the source become Lean structures.  The
three scalability facets (transaction, shard-creation, cross-shard) use
per-facet dict key spellings in the source (`tx_count_from`,
`shard_count_from`, ...); here the spec's neutral field names (`from_size`,
`to_size`, `from_throughput`, `to_throughput`, `efficiency`) name the same
positions, since the three loops at source lines 173-184, 217-227 and 249-259
are verbatim copies of one another up to those key spellings.
-/

/-- Python runtime errors that the embedded fragments can raise. -/
inductive PyErr where
  /-- `ZeroDivisionError`: raised by `a / b` when `b == 0`. -/
  | zeroDivision : PyErr
  /-- `ValueError`: raised e.g. by `min`/`max` of an empty sequence. -/
  | valueError : PyErr
  deriving DecidableEq, Repr

/-- Computations that may raise a Python error. -/
abbrev PyM (α : Type) : Type := Except PyErr α

/-- Python true division `a / b`: raises `ZeroDivisionError` when `b == 0`. -/
def pydiv (a b : ℚ) : PyM ℚ :=
  if b = 0 then .error .zeroDivision else .ok (a / b)

/-- Python `min` over a list: raises `ValueError` on the empty list. -/
def pymin : List ℚ → PyM ℚ
  | [] => .error .valueError
  | x :: xs => .ok (xs.foldl min x)

/-- Python `max` over a list: raises `ValueError` on the empty list. -/
def pymax : List ℚ → PyM ℚ
  | [] => .error .valueError
  | x :: xs => .ok (xs.foldl max x)

/-- One benchmark measurement: a workload size paired with the observed
throughput (source keys `tx_count`/`throughput_tps`, `shard_count`/
`throughput_sps` depending on the facet). -/
structure ThroughputSample where
  workload_size : ℚ
  throughput : ℚ
  deriving DecidableEq, Repr

/-- One entry of the scalability evaluation of two consecutive measurements
(source keys `*_count_from`, `*_count_to`, `tps_from`/`sps_from`,
`tps_to`/`sps_to`, `efficiency`). -/
structure ScalabilitySample where
  from_size : ℚ
  to_size : ℚ
  from_throughput : ℚ
  to_throughput : ℚ
  efficiency : ℚ
  deriving DecidableEq, Repr

/-- Loop body of the scalability evaluation (source lines 175-184):
`size_ratio = sizes[i] / sizes[i-1]`, `tps_ratio = tps[i] / tps[i-1]`,
`efficiency = tps_ratio / size_ratio`, in that evaluation order. -/
def scalability_step (prev cur : ThroughputSample) : PyM ScalabilitySample := do
  let size_ratio ← pydiv cur.workload_size prev.workload_size
  let tps_ratio ← pydiv cur.throughput prev.throughput
  let efficiency ← pydiv tps_ratio size_ratio
  pure ⟨prev.workload_size, cur.workload_size, prev.throughput, cur.throughput, efficiency⟩

/-- The `for i in range(1, len(...))` loop of source lines 174-184, expressed
as structural recursion over the consecutive pairs: `prev` plays the role of
index `i-1` and the head of the remaining list the role of index `i`. -/
def scalability_from (prev : ThroughputSample) :
    List ThroughputSample → PyM (List ScalabilitySample)
  | [] => pure []
  | cur :: rest => do
    let e ← scalability_step prev cur
    let es ← scalability_from cur rest
    pure (e :: es)

/-- Scalability evaluation of a whole series (source lines 172-184): the
`if len(...) > 1` guard corresponds to the first two cases producing `[]`. -/
def scalability_of : List ThroughputSample → PyM (List ScalabilitySample)
  | [] => pure []
  | s :: rest => scalability_from s rest

/-- Analysis record built for one throughput series (source lines 186-192):
the raw data, its scalability sequence, and min/max/avg throughput
(`min_sps`/`max_sps`/`avg_sps` in the shard-creation facet). -/
structure ThroughputAnalysis where
  data : List ThroughputSample
  scalability : List ScalabilitySample
  min_tps : ℚ
  max_tps : ℚ
  avg_tps : ℚ
  deriving DecidableEq, Repr

/-- Shared shape of the per-series analysis (source lines 164-192 and its
copies at 207-235 and 239-267): scalability first, then `min`, `max` and
`sum/len` in the order the dict literal evaluates them. -/
def analyze_throughput_series (samples : List ThroughputSample) : PyM ThroughputAnalysis := do
  let tps_values := samples.map (·.throughput)
  let scal ← scalability_of samples
  let mn ← pymin tps_values
  let mx ← pymax tps_values
  let av ← pydiv tps_values.sum (tps_values.length : ℚ)
  pure ⟨samples, scal, mn, mx, av⟩

/-- The `transaction_benchmark` section of a benchmark artifact; the
`throughput` key is optional (source line 164). -/
structure TransactionBenchmark where
  throughput : Option (List ThroughputSample)
  deriving DecidableEq, Repr

/-- Result dict of `analyze_transaction_performance` (source line 194-196). -/
structure TransactionAnalysisResult where
  throughput_analysis : Option ThroughputAnalysis
  deriving DecidableEq, Repr

/-- `analyze_transaction_performance` (source lines 155-196).  The `Option`
argument is `None`/missing-`transaction_benchmark` collapsed into one case,
exactly the condition of the early `return None` at line 157. -/
def analyze_transaction_performance :
    Option TransactionBenchmark → PyM (Option TransactionAnalysisResult)
  | none => pure none
  | some transaction_data =>
    match transaction_data.throughput with
    | none => pure (some ⟨none⟩)
    | some series => do
      let ta ← analyze_throughput_series series
      pure (some ⟨some ta⟩)

/-- The `sharding_benchmark` section of a benchmark artifact; both series
keys are optional (source lines 207, 239). -/
structure ShardingBenchmark where
  shard_creation : Option (List ThroughputSample)
  cross_shard_transactions : Option (List ThroughputSample)
  deriving DecidableEq, Repr

/-- Result dict of `analyze_sharding_performance` (source lines 269-272). -/
structure ShardingAnalysisResult where
  creation_analysis : Option ThroughputAnalysis
  cross_shard_analysis : Option ThroughputAnalysis
  deriving DecidableEq, Repr

/-- `analyze_sharding_performance` (source lines 198-272): the shard-creation
series is analyzed first, then the cross-shard series, each optional. -/
def analyze_sharding_performance :
    Option ShardingBenchmark → PyM (Option ShardingAnalysisResult)
  | none => pure none
  | some sharding_data => do
    let creation ← match sharding_data.shard_creation with
      | none => pure none
      | some series => do
        let a ← analyze_throughput_series series
        pure (some a)
    let cross ← match sharding_data.cross_shard_transactions with
      | none => pure none
      | some series => do
        let a ← analyze_throughput_series series
        pure (some a)
    pure (some ⟨creation, cross⟩)

/-! ## Profile parsers (source lines 64-153) -/

/-- Characters matched by Python's ASCII `\s` and stripped by `str.strip()`. -/
def isPySpace (c : Char) : Bool :=
  c = ' ' ∨ c = '\t' ∨ c = '\n' ∨ c = '\r' ∨ c = '\x0b' ∨ c = '\x0c'

/-- Python `s.strip()`: remove leading and trailing whitespace. -/
def pyStrip (s : String) : String :=
  String.mk (((s.data.dropWhile isPySpace).reverse.dropWhile isPySpace).reverse)

/-- Python `s.startswith(c)` for a single-character prefix. -/
def startsWithChar (c : Char) (s : String) : Bool :=
  match s.data with
  | d :: _ => d = c
  | [] => false

/-- Auxiliary recursion for `pySplitWsMax`: the first argument is fuel
(structural recursion measure; every step consumes at least one input
character, so fuel equal to the input length never runs out), `k` counts the
remaining allowed splits, `acc` holds the current field reversed. -/
def pySplitWsAux : ℕ → ℕ → List Char → List Char → List String
  | _, _, acc, [] => [String.mk acc.reverse]
  | _, 0, acc, rest => [String.mk (acc.reverse ++ rest)]
  | 0, _ + 1, acc, rest => [String.mk (acc.reverse ++ rest)]
  | f + 1, k + 1, acc, c :: cs =>
    if isPySpace c then
      String.mk acc.reverse :: pySplitWsAux f k [] (cs.dropWhile isPySpace)
    else
      pySplitWsAux f (k + 1) (c :: acc) cs

/-- Python `re.split(r'\s+', s, maxsplit=k)` for a positive `k` and a string
with no leading whitespace (the source strips the line first and always
passes `maxsplit=5`): split on maximal whitespace runs, at most `k` times,
the unsplit remainder forming the final field. -/
def pySplitWsMax (k : ℕ) (s : String) : List String :=
  pySplitWsAux s.data.length k [] s.data

/-- Leading and trailing digits of a character list. -/
def takeDigits (cs : List Char) : List Char × List Char :=
  (cs.takeWhile Char.isDigit, cs.dropWhile Char.isDigit)

/-- Numeric value of a digit list (most significant first). -/
def digitsVal (ds : List Char) : ℕ :=
  ds.foldl (fun n c => 10 * n + (c.toNat - 48)) 0

/-- Optional exponent suffix of a Python float literal: either the end of the
input, or `e`/`E`, an optional sign, and one or more digits consuming the
rest of the input. -/
def parseFloatExp (mant : ℚ) (cs : List Char) : Option ℚ :=
  match cs with
  | [] => some mant
  | c :: rest =>
    if c = 'e' ∨ c = 'E' then
      let signed : ℤ × List Char :=
        match rest with
        | '+' :: r => (1, r)
        | '-' :: r => (-1, r)
        | r => (1, r)
      let (ds, rest3) := takeDigits signed.2
      if ds.isEmpty ∨ ¬rest3.isEmpty then none
      else some (mant * (10 : ℚ) ^ (signed.1 * (digitsVal ds : ℤ)))
    else none

/-- Unsigned decimal part of a Python float literal: digits with an optional
fractional point, at least one digit overall, then an optional exponent. -/
def parseFloatUnsigned (cs : List Char) : Option ℚ :=
  let (ip, rest) := takeDigits cs
  match rest with
  | '.' :: rest2 =>
    let (fp, rest3) := takeDigits rest2
    if ip.isEmpty ∧ fp.isEmpty then none
    else parseFloatExp ((digitsVal ip : ℚ) + (digitsVal fp : ℚ) / (10 : ℚ) ^ fp.length) rest3
  | _ =>
    if ip.isEmpty then none
    else parseFloatExp (digitsVal ip : ℚ) rest

/-- Python `float(s)` on decimal literals: optional surrounding whitespace,
optional sign, decimal mantissa, optional exponent; `none` models the
`ValueError` the source catches at line 92.  The `inf`/`nan` spellings and
digit-group underscores accepted by CPython are not modelled (no claim
depends on them). -/
def pyFloat (s : String) : Option ℚ :=
  match (pyStrip s).data with
  | '+' :: cs => parseFloatUnsigned cs
  | '-' :: cs => (parseFloatUnsigned cs).map Neg.neg
  | cs => parseFloatUnsigned cs

/-- Python `s.strip(c)`: remove every leading and trailing occurrence of `c`. -/
def stripChar (c : Char) (s : String) : String :=
  String.mk (((s.data.dropWhile (· = c)).reverse.dropWhile (· = c)).reverse)

/-- One CPU hotspot extracted from a profile line (source lines 88-91). -/
structure CpuHotspot where
  overhead : ℚ
  function : String
  deriving DecidableEq, Repr

/-- Per-line body of the CPU overhead-table loop (source lines 78-93): skip
blank lines and lines starting with `#`; split the stripped line on
whitespace with `maxsplit=5`; require at least 5 fields; parse field 0 with
`%` stripped as a float (a failure is the caught `ValueError`); the hotspot
function name is the last field. -/
def parse_cpu_profile_line (line : String) : Option CpuHotspot :=
  if pyStrip line = "" ∨ startsWithChar '#' line then none
  else
    let parts := pySplitWsMax 5 (pyStrip line)
    if 5 ≤ parts.length then
      match parts.head?, parts.getLast? with
      | some p0, some fn =>
        match pyFloat (stripChar '%' p0) with
        | some overhead => some ⟨overhead, fn⟩
        | none => none
      | _, _ => none
    else none

/-- The whole overhead-table loop (source lines 78-93): unparseable lines are
skipped, parsed hotspots are kept in encounter order. -/
def parse_cpu_profile_lines (lines : List String) : List CpuHotspot :=
  lines.filterMap parse_cpu_profile_line

/-- Parsed CPU profile (source lines 95-97). -/
structure CpuProfile where
  hotspots : List CpuHotspot
  deriving DecidableEq, Repr

/-- Parsed heap summary (source lines 118-122): the three counters are set
together from one regex match of non-negative comma-grouped integers. -/
structure HeapSummary where
  total_allocs : ℕ
  total_frees : ℕ
  total_bytes : ℕ
  deriving DecidableEq, Repr

/-- One memory hotspot extracted from a leak block (source lines 140-143). -/
structure MemoryHotspot where
  bytes_lost : ℕ
  function : String
  deriving DecidableEq, Repr

/-- Parsed memory profile (source lines 147-150); `heap_summary = none`
models the empty dict left when the summary regex did not match. -/
structure MemoryProfile where
  heap_summary : Option HeapSummary
  memory_hotspots : List MemoryHotspot
  deriving DecidableEq, Repr

/-- Python `int(s.replace(',', ''))` on a `[\d,]+` capture: drop the commas
and read the digits; `none` models the caught `ValueError` when nothing but
commas was captured. -/
def parse_int_commas (s : String) : Option ℕ :=
  let t := s.data.filter (· ≠ ',')
  if t ≠ [] ∧ t.all Char.isDigit then some (digitsVal t) else none

/-- Literal characters at the head of the input. -/
def expectChars : List Char → List Char → Option (List Char)
  | [], cs => some cs
  | p :: ps, c :: cs => if c = p then expectChars ps cs else none
  | _ :: _, [] => none

/-- One or more digits at the head of the input (`\d+`). -/
def expectDigits (cs : List Char) : Option (List Char) :=
  let (ds, rest) := takeDigits cs
  if ds.isEmpty then none else some rest

/-- One or more whitespace characters at the head of the input (`\s+`). -/
def expectWs (cs : List Char) : Option (List Char) :=
  if (cs.takeWhile isPySpace).isEmpty then none else some (cs.dropWhile isPySpace)

/-- The frame regex `==\d+==\s+by\s+\d+:\s+(.*?)(?:\(|\n)` of source line 137
tried at the current position.  Every repetition in the pattern is over a
character class disjoint from the literal that follows it, so greedy
matching without backtracking is exact; the non-greedy capture is the run of
non-newline characters up to the first `(` or newline, which must exist. -/
def matchByFrameAt (input : List Char) : Option String := do
  let cs ← expectChars ['=', '='] input
  let cs ← expectDigits cs
  let cs ← expectChars ['=', '='] cs
  let cs ← expectWs cs
  let cs ← expectChars ['b', 'y'] cs
  let cs ← expectWs cs
  let cs ← expectDigits cs
  let cs ← expectChars [':'] cs
  let cs ← expectWs cs
  let captured := cs.takeWhile (fun c => ¬(c = '(' ∨ c = '\n'))
  match cs.dropWhile (fun c => ¬(c = '(' ∨ c = '\n')) with
  | [] => none
  | _ :: _ => some (String.mk captured)

/-- `re.search` of the frame pattern: leftmost position at which
`matchByFrameAt` succeeds. -/
def searchByFrame : List Char → Option String
  | [] => none
  | c :: cs =>
    match matchByFrameAt (c :: cs) with
    | some r => some r
    | none => searchByFrame cs

/-- Per-block body of the leak-block loop (source lines 131-145): parse the
comma-grouped byte count (a failure is the caught `ValueError`), strip the
call stack, extract the first `by N: function` frame, falling back to the
literal `"Unknown"` when no frame matches; the block always yields a
hotspot once its byte count parses. -/
def parse_leak_block (bytesField : String) (allocation_stack : String) :
    Option MemoryHotspot :=
  match parse_int_commas bytesField with
  | none => none
  | some bytes_lost =>
    let function :=
      match searchByFrame (pyStrip allocation_stack).data with
      | some f => pyStrip f
      | none => "Unknown"
    some ⟨bytes_lost, function⟩

/-! ## Bottleneck detector (source lines 274-361) -/

/-- One bottleneck finding (source lines 288-293 and siblings).  The
`description` and `recommendation` fields of the source are fixed-template
presentational strings (with locale text and number formatting); no claim
constrains them, so they are not modelled. -/
structure Bottleneck where
  type : String
  severity : String
  deriving DecidableEq, Repr

/-- The `analysis_results` dict as seen by the detector: both keys are
optional, and a key present with value `None` behaves identically to an
absent key under the source's `'k' in d and d['k']` tests, so the two are
collapsed into one `Option`. -/
structure AnalysisResults where
  transaction_analysis : Option TransactionAnalysisResult
  sharding_analysis : Option ShardingAnalysisResult
  deriving DecidableEq, Repr

/-- `identify_bottlenecks` (source lines 274-361), mirroring the source's
sequential appends: transaction scalability (279-293), shard-creation
scalability (296-310), cross-shard scalability (313-323), CPU hotspots
(326-334), memory leak (337-350), memory hotspots (352-359).  The only
fallible step is the leak-ratio division at line 344, reached only after the
short-circuiting `leak_count > 0` test. -/
def identify_bottlenecks (analysis_results : AnalysisResults)
    (cpu_profile : Option CpuProfile) (memory_profile : Option MemoryProfile)
    (threshold : ℚ) : PyM (List Bottleneck) := do
  let bottlenecks : List Bottleneck := []
  let bottlenecks := bottlenecks ++
    (match analysis_results.transaction_analysis with
     | some tx_analysis =>
       (match tx_analysis.throughput_analysis with
        | some throughput =>
          throughput.scalability.filterMap (fun item =>
            if item.efficiency < 1 - threshold / 100 then
              some ⟨"transaction_scalability",
                    if item.efficiency < 1 / 2 then "high" else "medium"⟩
            else none)
        | none => [])
     | none => [])
  let bottlenecks := bottlenecks ++
    (match analysis_results.sharding_analysis with
     | some shard_analysis =>
       (match shard_analysis.creation_analysis with
        | some creation =>
          creation.scalability.filterMap (fun item =>
            if item.efficiency < 1 - threshold / 100 then
              some ⟨"shard_creation_scalability",
                    if item.efficiency < 1 / 2 then "high" else "medium"⟩
            else none)
        | none => [])
     | none => [])
  let bottlenecks := bottlenecks ++
    (match analysis_results.sharding_analysis with
     | some shard_analysis =>
       (match shard_analysis.cross_shard_analysis with
        | some cross_shard =>
          cross_shard.scalability.filterMap (fun item =>
            if item.efficiency < 1 - threshold / 100 then
              some ⟨"cross_shard_scalability",
                    if item.efficiency < 1 / 2 then "high" else "medium"⟩
            else none)
        | none => [])
     | none => [])
  let bottlenecks := bottlenecks ++
    (match cpu_profile with
     | some cp =>
       (cp.hotspots.take 5).filterMap (fun hotspot =>
         if threshold < hotspot.overhead then
           some ⟨"cpu_hotspot",
                 if 30 < hotspot.overhead then "high"
                 else if 15 < hotspot.overhead then "medium" else "low"⟩
         else none)
     | none => [])
  match memory_profile with
  | some mp => do
    let bottlenecks ←
      (match mp.heap_summary with
       | some heap =>
         let leak_count : ℤ := (heap.total_allocs : ℤ) - (heap.total_frees : ℤ)
         if 0 < leak_count then do
           let ratio ← pydiv (leak_count : ℚ) (heap.total_allocs : ℚ)
           if threshold / 100 < ratio then
             pure (bottlenecks ++ [⟨"memory_leak", "high"⟩])
           else
             pure bottlenecks
         else
           pure bottlenecks
       | none => pure bottlenecks)
    pure (bottlenecks ++
      (mp.memory_hotspots.take 5).map (fun _ => (⟨"memory_hotspot", "medium"⟩ : Bottleneck)))
  | none => pure bottlenecks

/-! Named per-rule segments, used to state the decomposition of
`identify_bottlenecks` in the theorems below. -/

/-- The scalability rule applied to one facet's scalability sequence. -/
def scalability_bottlenecks (ty : String) (scal : List ScalabilitySample)
    (threshold : ℚ) : List Bottleneck :=
  scal.filterMap (fun item =>
    if item.efficiency < 1 - threshold / 100 then
      some ⟨ty, if item.efficiency < 1 / 2 then "high" else "medium"⟩
    else none)

/-- Bottlenecks the transaction facet contributes. -/
def transaction_segment (ar : AnalysisResults) (threshold : ℚ) : List Bottleneck :=
  match ar.transaction_analysis with
  | some tx =>
    (match tx.throughput_analysis with
     | some th => scalability_bottlenecks "transaction_scalability" th.scalability threshold
     | none => [])
  | none => []

/-- Bottlenecks the shard-creation facet contributes. -/
def shard_creation_segment (ar : AnalysisResults) (threshold : ℚ) : List Bottleneck :=
  match ar.sharding_analysis with
  | some sa =>
    (match sa.creation_analysis with
     | some c => scalability_bottlenecks "shard_creation_scalability" c.scalability threshold
     | none => [])
  | none => []

/-- Bottlenecks the cross-shard facet contributes. -/
def cross_shard_segment (ar : AnalysisResults) (threshold : ℚ) : List Bottleneck :=
  match ar.sharding_analysis with
  | some sa =>
    (match sa.cross_shard_analysis with
     | some c => scalability_bottlenecks "cross_shard_scalability" c.scalability threshold
     | none => [])
  | none => []

/-- Severity tier of a detected CPU hotspot. -/
def cpu_hotspot_severity (overhead : ℚ) : String :=
  if 30 < overhead then "high" else if 15 < overhead then "medium" else "low"

/-- Bottlenecks the CPU profile contributes. -/
def cpu_segment (cpu : Option CpuProfile) (threshold : ℚ) : List Bottleneck :=
  match cpu with
  | some cp =>
    (cp.hotspots.take 5).filterMap (fun h =>
      if threshold < h.overhead then
        some ⟨"cpu_hotspot", cpu_hotspot_severity h.overhead⟩
      else none)
  | none => []

/-- Pure specification of the memory-leak rule for one heap summary: the
leak bottleneck is emitted exactly when the leak count is positive and the
leak ratio strictly exceeds `threshold/100`. -/
def memory_leak_flag (heap : HeapSummary) (threshold : ℚ) : List Bottleneck :=
  if heap.total_frees < heap.total_allocs ∧
     threshold / 100 <
       ((heap.total_allocs : ℚ) - (heap.total_frees : ℚ)) / (heap.total_allocs : ℚ) then
    [⟨"memory_leak", "high"⟩]
  else []

/-- Bottlenecks the memory-leak rule contributes. -/
def memory_leak_segment (mem : Option MemoryProfile) (threshold : ℚ) : List Bottleneck :=
  match mem with
  | some mp =>
    (match mp.heap_summary with
     | some heap => memory_leak_flag heap threshold
     | none => [])
  | none => []

/-- Bottlenecks the memory-hotspot rule contributes. -/
def memory_hotspot_segment (mem : Option MemoryProfile) : List Bottleneck :=
  match mem with
  | some mp => (mp.memory_hotspots.take 5).map (fun _ => (⟨"memory_hotspot", "medium"⟩ : Bottleneck))
  | none => []

/-! ## Structured (JSON) report (source lines 608-620)

`generate_json_report` shallow-copies the analysis dict, adds a `timestamp`
key and serializes with `json.dump`.  The JSON text layer is modelled at the
value level: `PyVal` is the universe of JSON-representable Python values, the
`toVal` functions spell out the dicts the source pipeline builds, and the
`decode*` functions are the value-level counterpart of reading the report
back with `json.load` (stdlib code, not part of this repository). -/

/-- JSON-representable Python values.  Python ints and floats are merged
into one exact numeric constructor, as everywhere in this embedding. -/
inductive PyVal where
  | null : PyVal
  | num : ℚ → PyVal
  | str : String → PyVal
  | list : List PyVal → PyVal
  | dict : List (String × PyVal) → PyVal

/-- First value bound to a key in a Python dict rendered as an entry list. -/
def lookupKey (k : String) : List (String × PyVal) → Option PyVal
  | [] => none
  | (k2, v) :: rest => if k2 = k then some v else lookupKey k rest

/-- Python dict assignment `d[k] = v`: replace the binding in place when the
key exists, append it otherwise (insertion order is preserved). -/
def dictSet (k : String) (v : PyVal) : List (String × PyVal) → List (String × PyVal)
  | [] => [(k, v)]
  | (k2, v2) :: rest => if k2 = k then (k, v) :: rest else (k2, v2) :: dictSet k v rest

/-- Remove every binding of a key from a dict entry list. -/
def removeKey (k : String) : List (String × PyVal) → List (String × PyVal)
  | [] => []
  | (k2, v2) :: rest => if k2 = k then removeKey k rest else (k2, v2) :: removeKey k rest

/-- `None`-or-value encoding of an optional substructure. -/
def optVal (f : α → PyVal) : Option α → PyVal
  | none => .null
  | some x => f x

/-- Dict built for one throughput measurement. -/
def ThroughputSample.toVal (s : ThroughputSample) : PyVal :=
  .dict [("workload_size", .num s.workload_size), ("throughput", .num s.throughput)]

/-- Dict built for one scalability entry (source lines 178-184). -/
def ScalabilitySample.toVal (e : ScalabilitySample) : PyVal :=
  .dict [("from_size", .num e.from_size), ("to_size", .num e.to_size),
         ("from_throughput", .num e.from_throughput),
         ("to_throughput", .num e.to_throughput),
         ("efficiency", .num e.efficiency)]

/-- Dict built for one throughput analysis (source lines 186-192). -/
def ThroughputAnalysis.toVal (a : ThroughputAnalysis) : PyVal :=
  .dict [("data", .list (a.data.map ThroughputSample.toVal)),
         ("scalability", .list (a.scalability.map ScalabilitySample.toVal)),
         ("min_tps", .num a.min_tps), ("max_tps", .num a.max_tps),
         ("avg_tps", .num a.avg_tps)]

/-- Dict built by `analyze_transaction_performance` (source lines 194-196). -/
def TransactionAnalysisResult.toVal (t : TransactionAnalysisResult) : PyVal :=
  .dict [("throughput_analysis", optVal ThroughputAnalysis.toVal t.throughput_analysis)]

/-- Dict built by `analyze_sharding_performance` (source lines 269-272). -/
def ShardingAnalysisResult.toVal (s : ShardingAnalysisResult) : PyVal :=
  .dict [("creation_analysis", optVal ThroughputAnalysis.toVal s.creation_analysis),
         ("cross_shard_analysis", optVal ThroughputAnalysis.toVal s.cross_shard_analysis)]

/-- Dict built for one bottleneck (source lines 288-293 and siblings). -/
def Bottleneck.toVal (b : Bottleneck) : PyVal :=
  .dict [("type", .str b.type), ("severity", .str b.severity)]

/-- One chart directive as stored in the analysis dict (source line 827). -/
structure Chart where
  title : String
  path : String
  description : String
  deriving DecidableEq, Repr

/-- Dict built for one chart directive (source line 827). -/
def Chart.toVal (c : Chart) : PyVal :=
  .dict [("title", .str c.title), ("path", .str c.path),
         ("description", .str c.description)]

/-- The complete `analysis_results` dict that `main` hands to
`generate_json_report` (source lines 812-827): the two facet analyses, the
bottleneck list and the chart directives. -/
structure FullAnalysisResults where
  transaction_analysis : Option TransactionAnalysisResult
  sharding_analysis : Option ShardingAnalysisResult
  bottlenecks : List Bottleneck
  charts : List Chart
  deriving DecidableEq, Repr

/-- The top-level analysis dict as an entry list, in insertion order. -/
def FullAnalysisResults.toVal (a : FullAnalysisResults) : List (String × PyVal) :=
  [("transaction_analysis", optVal TransactionAnalysisResult.toVal a.transaction_analysis),
   ("sharding_analysis", optVal ShardingAnalysisResult.toVal a.sharding_analysis),
   ("bottlenecks", .list (a.bottlenecks.map Bottleneck.toVal)),
   ("charts", .list (a.charts.map Chart.toVal))]

/-- `generate_json_report` (source lines 608-620): shallow-copy the analysis
dict, bind the `timestamp` key on the copy, serialize.  The copy leaves the
input dict untouched, which the pure embedding renders automatically. -/
def generate_json_report (analysis_results : FullAnalysisResults)
    (timestamp : String) : List (String × PyVal) :=
  dictSet "timestamp" (.str timestamp) analysis_results.toVal

/-- Decode a list of values elementwise, failing if any element fails. -/
def decodeEach (f : PyVal → Option α) : List PyVal → Option (List α)
  | [] => some []
  | v :: vs =>
    match f v, decodeEach f vs with
    | some x, some xs => some (x :: xs)
    | _, _ => none

/-- Decode a JSON array. -/
def decodeListOf (f : PyVal → Option α) : PyVal → Option (List α)
  | .list l => decodeEach f l
  | _ => none

/-- Decode a nullable substructure. -/
def decodeOpt (f : PyVal → Option α) : PyVal → Option (Option α)
  | .null => some none
  | v => (f v).map some

/-- Decode one throughput measurement. -/
def decodeThroughputSample : PyVal → Option ThroughputSample
  | .dict d =>
    match lookupKey "workload_size" d, lookupKey "throughput" d with
    | some (.num a), some (.num b) => some ⟨a, b⟩
    | _, _ => none
  | _ => none

/-- Decode one scalability entry. -/
def decodeScalabilitySample : PyVal → Option ScalabilitySample
  | .dict d =>
    match lookupKey "from_size" d, lookupKey "to_size" d,
          lookupKey "from_throughput" d, lookupKey "to_throughput" d,
          lookupKey "efficiency" d with
    | some (.num a), some (.num b), some (.num c), some (.num e), some (.num f) =>
      some ⟨a, b, c, e, f⟩
    | _, _, _, _, _ => none
  | _ => none

/-- Decode one throughput analysis. -/
def decodeThroughputAnalysis : PyVal → Option ThroughputAnalysis
  | .dict d => do
    let vdata ← lookupKey "data" d
    let vscal ← lookupKey "scalability" d
    let PyVal.num mn ← lookupKey "min_tps" d | none
    let PyVal.num mx ← lookupKey "max_tps" d | none
    let PyVal.num av ← lookupKey "avg_tps" d | none
    let data ← decodeListOf decodeThroughputSample vdata
    let scal ← decodeListOf decodeScalabilitySample vscal
    pure ⟨data, scal, mn, mx, av⟩
  | _ => none

/-- Decode the transaction analysis dict. -/
def decodeTransactionAnalysisResult : PyVal → Option TransactionAnalysisResult
  | .dict d => do
    let v ← lookupKey "throughput_analysis" d
    let o ← decodeOpt decodeThroughputAnalysis v
    pure ⟨o⟩
  | _ => none

/-- Decode the sharding analysis dict. -/
def decodeShardingAnalysisResult : PyVal → Option ShardingAnalysisResult
  | .dict d => do
    let v1 ← lookupKey "creation_analysis" d
    let v2 ← lookupKey "cross_shard_analysis" d
    let c ← decodeOpt decodeThroughputAnalysis v1
    let x ← decodeOpt decodeThroughputAnalysis v2
    pure ⟨c, x⟩
  | _ => none

/-- Decode one bottleneck. -/
def decodeBottleneck : PyVal → Option Bottleneck
  | .dict d =>
    match lookupKey "type" d, lookupKey "severity" d with
    | some (.str t), some (.str s) => some ⟨t, s⟩
    | _, _ => none
  | _ => none

/-- Decode one chart directive. -/
def decodeChart : PyVal → Option Chart
  | .dict d =>
    match lookupKey "title" d, lookupKey "path" d, lookupKey "description" d with
    | some (.str t), some (.str p), some (.str de) => some ⟨t, p, de⟩
    | _, _, _ => none
  | _ => none

/-- Decode the top-level analysis dict; unrecognized keys (such as the added
`timestamp`) are ignored, exactly as a consumer of the report would. -/
def decodeFullAnalysisResults (d : List (String × PyVal)) : Option FullAnalysisResults := do
  let v1 ← lookupKey "transaction_analysis" d
  let v2 ← lookupKey "sharding_analysis" d
  let v3 ← lookupKey "bottlenecks" d
  let v4 ← lookupKey "charts" d
  let t ← decodeOpt decodeTransactionAnalysisResult v1
  let s ← decodeOpt decodeShardingAnalysisResult v2
  let b ← decodeListOf decodeBottleneck v3
  let c ← decodeListOf decodeChart v4
  pure ⟨t, s, b, c⟩

/-- Closed form of one scalability entry when every divisor is nonzero:
the entry references exactly its adjacent pair and
`efficiency = (throughput_to / throughput_from) / (size_to / size_from)`. -/
def adjacent_efficiency_entry (prev cur : ThroughputSample) : ScalabilitySample :=
  ⟨prev.workload_size, cur.workload_size, prev.throughput, cur.throughput,
   (cur.throughput / prev.throughput) / (cur.workload_size / prev.workload_size)⟩

/-- Closed form of the whole scalability sequence (total, division-free in
the sense of Lean's total `/`); the analyzer is proved below to return
exactly this list whenever no division raises. -/
def scalability_closed_form (prev : ThroughputSample) :
    List ThroughputSample → List ScalabilitySample
  | [] => []
  | cur :: rest => adjacent_efficiency_entry prev cur :: scalability_closed_form cur rest

/-! ## Theorems -/

theorem scalability_step_ok (prev cur : ThroughputSample)
    (h1 : prev.workload_size ≠ 0) (h2 : prev.throughput ≠ 0)
    (h3 : cur.workload_size ≠ 0) :
    scalability_step prev cur = .ok (adjacent_efficiency_entry prev cur) := by
  have hr : cur.workload_size / prev.workload_size ≠ 0 := div_ne_zero h3 h1
  simp [scalability_step, pydiv, h1, h2, hr, adjacent_efficiency_entry,
        Bind.bind, Except.bind, Functor.map, Except.map, Pure.pure, Except.pure]

theorem scalability_from_ok (rest : List ThroughputSample) :
    ∀ prev : ThroughputSample,
      prev.workload_size ≠ 0 → prev.throughput ≠ 0 →
      (∀ s ∈ rest, s.workload_size ≠ 0 ∧ s.throughput ≠ 0) →
      scalability_from prev rest = .ok (scalability_closed_form prev rest) := by
  induction rest with
  | nil => intro prev _ _ _; rfl
  | cons cur rest ih =>
    intro prev h1 h2 hall
    have hcur := hall cur (List.mem_cons_self cur rest)
    have hrest : ∀ s ∈ rest, s.workload_size ≠ 0 ∧ s.throughput ≠ 0 :=
      fun s hs => hall s (List.mem_cons_of_mem _ hs)
    rw [scalability_from, scalability_step_ok prev cur h1 h2 hcur.1]
    rw [scalability_closed_form]
    simp [ih cur hcur.1 hcur.2 hrest, Bind.bind, Except.bind, Pure.pure, Except.pure]

theorem scalability_closed_form_length (rest : List ThroughputSample) :
    ∀ prev, (scalability_closed_form prev rest).length = rest.length := by
  induction rest with
  | nil => intro prev; rfl
  | cons cur rest ih => intro prev; simp [scalability_closed_form, ih cur]

theorem scalability_closed_form_get (rest : List ThroughputSample) :
    ∀ (prev : ThroughputSample) (i : ℕ) (p q : ThroughputSample),
      (prev :: rest)[i]? = some p → (prev :: rest)[i + 1]? = some q →
      (scalability_closed_form prev rest)[i]? = some (adjacent_efficiency_entry p q) := by
  induction rest with
  | nil =>
    intro prev i p q _ hq
    rcases i with _ | j <;> simp_all
  | cons cur rest ih =>
    intro prev i p q hp hq
    rcases i with _ | j
    · simp only [List.getElem?_cons_zero, Option.some.injEq] at hp
      simp only [List.getElem?_cons_succ, List.getElem?_cons_zero, Option.some.injEq] at hq
      subst hp; subst hq
      simp [scalability_closed_form]
    · simp only [List.getElem?_cons_succ] at hp hq
      have := ih cur j p q hp (by simpa using hq)
      simpa [scalability_closed_form] using this

theorem analyze_throughput_series_ok (s : ThroughputSample) (rest : List ThroughputSample)
    (l : List ScalabilitySample) (hscal : scalability_of (s :: rest) = .ok l) :
    ∃ ta : ThroughputAnalysis, analyze_throughput_series (s :: rest) = .ok ta ∧
      ta.data = s :: rest ∧ ta.scalability = l := by
  have hne : ((rest.length : ℚ) + 1) ≠ 0 := by positivity
  refine ⟨⟨s :: rest, l,
    (rest.map (·.throughput)).foldl min s.throughput,
    (rest.map (·.throughput)).foldl max s.throughput,
    ((s :: rest).map (·.throughput)).sum / (((s :: rest).map (·.throughput)).length : ℚ)⟩,
    ?_, rfl, rfl⟩
  simp only [analyze_throughput_series, hscal, List.map_cons, pymin, pymax, pydiv,
    Bind.bind, Except.bind, Pure.pure, Except.pure]
  simp [if_neg hne]

/-- Claim C1: for every throughput series of `n ≥ 2` samples whose workload
sizes and throughputs are nonzero (the data model declares efficiency
undefined at zero), the scalability sequence has exactly `n - 1` entries;
entry `i` references the adjacent pair `(i, i+1)` and its efficiency is
`(throughput[i+1]/throughput[i]) / (size[i+1]/size[i])`; and
`analyze_transaction_performance`, the shard-creation analyzer and the
cross-shard analyzer all embed exactly this sequence in their results. -/
theorem scalability_sequence_adjacent_pairs (samples : List ThroughputSample)
    (hlen : 2 ≤ samples.length)
    (hnz : ∀ s ∈ samples, s.workload_size ≠ 0 ∧ s.throughput ≠ 0) :
    ∃ l, scalability_of samples = .ok l ∧
      l.length = samples.length - 1 ∧
      (∀ i : ℕ, i + 1 < samples.length →
        ∃ p q, samples[i]? = some p ∧ samples[i + 1]? = some q ∧
          l[i]? = some (adjacent_efficiency_entry p q)) ∧
      (∃ ta, analyze_transaction_performance (some ⟨some samples⟩) = .ok (some ⟨some ta⟩) ∧
        ta.scalability = l) ∧
      (∃ ca, analyze_sharding_performance (some ⟨some samples, none⟩) =
        .ok (some ⟨some ca, none⟩) ∧ ca.scalability = l) ∧
      (∃ xa, analyze_sharding_performance (some ⟨none, some samples⟩) =
        .ok (some ⟨none, some xa⟩) ∧ xa.scalability = l) := by
  match samples, hlen with
  | s :: rest, _ =>
    have hs := hnz s (List.mem_cons_self s rest)
    have hrest : ∀ x ∈ rest, x.workload_size ≠ 0 ∧ x.throughput ≠ 0 :=
      fun x hx => hnz x (List.mem_cons_of_mem _ hx)
    have hfrom := scalability_from_ok rest s hs.1 hs.2 hrest
    have hof : scalability_of (s :: rest) = .ok (scalability_closed_form s rest) := hfrom
    refine ⟨scalability_closed_form s rest, hof, ?_, ?_, ?_, ?_, ?_⟩
    · simp [scalability_closed_form_length]
    · intro i hi
      have hi2 : i < (s :: rest).length := Nat.lt_of_succ_lt hi
      refine ⟨(s :: rest).get ⟨i, hi2⟩, (s :: rest).get ⟨i + 1, hi⟩, ?_, ?_, ?_⟩
      · simp [List.getElem?_eq_getElem hi2]
      · simp [List.getElem?_eq_getElem hi]
      · exact scalability_closed_form_get rest s i _ _
          (by simp [List.getElem?_eq_getElem hi2]) (by simp [List.getElem?_eq_getElem hi])
    · obtain ⟨ta, hta, _, hscal⟩ := analyze_throughput_series_ok s rest _ hof
      exact ⟨ta, by simp [analyze_transaction_performance, hta, Bind.bind, Except.bind,
        Pure.pure, Except.pure], hscal⟩
    · obtain ⟨ta, hta, _, hscal⟩ := analyze_throughput_series_ok s rest _ hof
      exact ⟨ta, by simp [analyze_sharding_performance, hta, Bind.bind, Except.bind,
        Pure.pure, Except.pure], hscal⟩
    · obtain ⟨ta, hta, _, hscal⟩ := analyze_throughput_series_ok s rest _ hof
      exact ⟨ta, by simp [analyze_sharding_performance, hta, Bind.bind, Except.bind,
        Pure.pure, Except.pure], hscal⟩

theorem scalability_sequence_adjacent_pairs_witness :
    2 ≤ ([⟨100, 1000⟩, ⟨200, 1500⟩, ⟨400, 2000⟩] : List ThroughputSample).length ∧
    (∀ s ∈ ([⟨100, 1000⟩, ⟨200, 1500⟩, ⟨400, 2000⟩] : List ThroughputSample),
      s.workload_size ≠ 0 ∧ s.throughput ≠ 0) ∧
    (∃ l, scalability_of [⟨100, 1000⟩, ⟨200, 1500⟩, ⟨400, 2000⟩] = .ok l ∧
      l.length = ([⟨100, 1000⟩, ⟨200, 1500⟩, ⟨400, 2000⟩] : List ThroughputSample).length - 1 ∧
      (∀ i : ℕ, i + 1 < ([⟨100, 1000⟩, ⟨200, 1500⟩, ⟨400, 2000⟩] : List ThroughputSample).length →
        ∃ p q, ([⟨100, 1000⟩, ⟨200, 1500⟩, ⟨400, 2000⟩] : List ThroughputSample)[i]? = some p ∧
          ([⟨100, 1000⟩, ⟨200, 1500⟩, ⟨400, 2000⟩] : List ThroughputSample)[i + 1]? = some q ∧
          l[i]? = some (adjacent_efficiency_entry p q)) ∧
      (∃ ta, analyze_transaction_performance
          (some ⟨some [⟨100, 1000⟩, ⟨200, 1500⟩, ⟨400, 2000⟩]⟩) = .ok (some ⟨some ta⟩) ∧
        ta.scalability = l) ∧
      (∃ ca, analyze_sharding_performance
          (some ⟨some [⟨100, 1000⟩, ⟨200, 1500⟩, ⟨400, 2000⟩], none⟩) =
        .ok (some ⟨some ca, none⟩) ∧ ca.scalability = l) ∧
      (∃ xa, analyze_sharding_performance
          (some ⟨none, some [⟨100, 1000⟩, ⟨200, 1500⟩, ⟨400, 2000⟩]⟩) =
        .ok (some ⟨none, some xa⟩) ∧ xa.scalability = l)) :=
  ⟨by decide, by decide,
   scalability_sequence_adjacent_pairs [⟨100, 1000⟩, ⟨200, 1500⟩, ⟨400, 2000⟩]
     (by decide) (by decide)⟩

/-- Claim C2: contrary to the invariant that the efficiency division must be
guarded, the analyzers perform it unguarded: a series whose first
measurement has throughput 0, or workload size 0, makes the transaction,
shard-creation and cross-shard analyzers raise `ZeroDivisionError`. -/
theorem analyzers_unguarded_zero_division :
    analyze_transaction_performance (some ⟨some [⟨1, 0⟩, ⟨2, 5⟩]⟩) =
      .error .zeroDivision ∧
    analyze_transaction_performance (some ⟨some [⟨0, 5⟩, ⟨2, 10⟩]⟩) =
      .error .zeroDivision ∧
    analyze_sharding_performance (some ⟨some [⟨1, 0⟩, ⟨2, 5⟩], none⟩) =
      .error .zeroDivision ∧
    analyze_sharding_performance (some ⟨none, some [⟨0, 5⟩, ⟨2, 10⟩]⟩) =
      .error .zeroDivision := by
  refine ⟨?_, ?_, ?_, ?_⟩ <;> rfl

/-- Claim C6 counterexample: with 0 samples the analyzer does not return an
empty analysis; it raises `ValueError` computing `min` over the empty
throughput list (source line 189), refuting the claim that 0 samples never
produce an error. -/
theorem analyze_zero_samples_raises :
    analyze_transaction_performance (some ⟨some []⟩) = .error .valueError := rfl

/-- Claim C6 (amended): with exactly 1 sample the analyzer produces an empty
scalability sequence without error, computing min/max/avg over that single
sample; with 0 samples the scalability sequence itself is still empty, but
the analyzer raises `ValueError` when it reaches the `min` computation. -/
theorem analyze_single_sample (s : ThroughputSample) :
    analyze_transaction_performance (some ⟨some [s]⟩) =
      .ok (some ⟨some ⟨[s], [], s.throughput, s.throughput, s.throughput⟩⟩) ∧
    scalability_of [s] = .ok [] ∧
    scalability_of [] = .ok [] ∧
    analyze_transaction_performance (some ⟨some []⟩) = .error .valueError := by
  refine ⟨?_, rfl, rfl, rfl⟩
  simp [analyze_transaction_performance, analyze_throughput_series, scalability_of,
        scalability_from, pymin, pymax, pydiv, Bind.bind, Except.bind,
        Pure.pure, Except.pure]

theorem identify_bottlenecks_eq (ar : AnalysisResults) (cpu : Option CpuProfile)
    (mem : Option MemoryProfile) (th : ℚ) :
    identify_bottlenecks ar cpu mem th = .ok
      (transaction_segment ar th ++ shard_creation_segment ar th ++
       cross_shard_segment ar th ++ cpu_segment cpu th ++
       memory_leak_segment mem th ++ memory_hotspot_segment mem) := by
  obtain ⟨ta, sa⟩ := ar
  simp only [identify_bottlenecks, transaction_segment, shard_creation_segment,
    cross_shard_segment, cpu_segment, memory_leak_segment, memory_hotspot_segment,
    scalability_bottlenecks, cpu_hotspot_severity, memory_leak_flag]
  cases mem with
  | none =>
    simp [Bind.bind, Except.bind, Pure.pure, Except.pure, List.append_assoc]
  | some mp =>
    obtain ⟨hs, mh⟩ := mp
    cases hs with
    | none =>
      simp [Bind.bind, Except.bind, Pure.pure, Except.pure, List.append_assoc]
    | some heap =>
      obtain ⟨al, fr, bt⟩ := heap
      by_cases hpos : (0 : ℤ) < (al : ℤ) - (fr : ℤ)
      · have hfr : fr < al := by
          have := Int.sub_pos.mp hpos
          exact_mod_cast this
        have hal : (al : ℚ) ≠ 0 := by
          have h0 : 0 < al := Nat.lt_of_le_of_lt (Nat.zero_le fr) hfr
          exact Nat.cast_ne_zero.mpr h0.ne.symm
        have hcast : (((al : ℤ) - (fr : ℤ) : ℤ) : ℚ) = (al : ℚ) - (fr : ℚ) := by
          push_cast; ring
        by_cases hratio : th / 100 < ((al : ℚ) - (fr : ℚ)) / (al : ℚ)
        · simp [hpos, pydiv, hal, hcast, hfr, hratio, Bind.bind, Except.bind,
            Pure.pure, Except.pure, List.append_assoc]
        · simp [hpos, pydiv, hal, hcast, hfr, hratio, Bind.bind, Except.bind,
            Pure.pure, Except.pure, List.append_assoc]
      · have hfr : ¬ fr < al := by
          intro hlt
          exact hpos (Int.sub_pos.mpr (by exact_mod_cast hlt))
        simp [hpos, hfr, Bind.bind, Except.bind, Pure.pure, Except.pure,
          List.append_assoc]

theorem scalability_bottlenecks_type (ty : String) (scal : List ScalabilitySample)
    (th : ℚ) : ∀ b ∈ scalability_bottlenecks ty scal th, b.type = ty := by
  intro b hb
  obtain ⟨e, _, heq⟩ := List.mem_filterMap.mp hb
  split at heq
  · cases heq
    rfl
  · cases heq

theorem transaction_segment_type (ar : AnalysisResults) (th : ℚ) :
    ∀ b ∈ transaction_segment ar th, b.type = "transaction_scalability" := by
  obtain ⟨ta, sa⟩ := ar
  intro b hb
  rcases ta with _ | ⟨tha⟩
  · simp [transaction_segment] at hb
  · rcases tha with _ | t
    · simp [transaction_segment] at hb
    · exact scalability_bottlenecks_type _ _ _ b (by simpa [transaction_segment] using hb)

theorem shard_creation_segment_type (ar : AnalysisResults) (th : ℚ) :
    ∀ b ∈ shard_creation_segment ar th, b.type = "shard_creation_scalability" := by
  obtain ⟨ta, sa⟩ := ar
  intro b hb
  rcases sa with _ | ⟨ca, xa⟩
  · simp [shard_creation_segment] at hb
  · rcases ca with _ | t
    · simp [shard_creation_segment] at hb
    · exact scalability_bottlenecks_type _ _ _ b (by simpa [shard_creation_segment] using hb)

theorem cross_shard_segment_type (ar : AnalysisResults) (th : ℚ) :
    ∀ b ∈ cross_shard_segment ar th, b.type = "cross_shard_scalability" := by
  obtain ⟨ta, sa⟩ := ar
  intro b hb
  rcases sa with _ | ⟨ca, xa⟩
  · simp [cross_shard_segment] at hb
  · rcases xa with _ | t
    · simp [cross_shard_segment] at hb
    · exact scalability_bottlenecks_type _ _ _ b (by simpa [cross_shard_segment] using hb)

theorem cpu_segment_type (cpu : Option CpuProfile) (th : ℚ) :
    ∀ b ∈ cpu_segment cpu th, b.type = "cpu_hotspot" := by
  rcases cpu with _ | ⟨hs⟩
  · intro b hb; simp [cpu_segment] at hb
  · intro b hb
    simp only [cpu_segment] at hb
    obtain ⟨h, _, heq⟩ := List.mem_filterMap.mp hb
    split at heq
    · cases heq
      rfl
    · cases heq

theorem memory_leak_segment_type (mem : Option MemoryProfile) (th : ℚ) :
    ∀ b ∈ memory_leak_segment mem th, b.type = "memory_leak" := by
  rcases mem with _ | ⟨hs, mh⟩
  · intro b hb; simp [memory_leak_segment] at hb
  · rcases hs with _ | heap
    · intro b hb; simp [memory_leak_segment] at hb
    · intro b hb
      simp only [memory_leak_segment, memory_leak_flag] at hb
      split at hb
      · simp at hb
        rw [hb]
      · simp at hb

theorem memory_hotspot_segment_type (mem : Option MemoryProfile) :
    ∀ b ∈ memory_hotspot_segment mem, b.type = "memory_hotspot" := by
  rcases mem with _ | ⟨hs, mh⟩
  · intro b hb; simp [memory_hotspot_segment] at hb
  · intro b hb
    simp only [memory_hotspot_segment] at hb
    obtain ⟨h, _, heq⟩ := List.mem_map.mp hb
    rw [← heq]

/-- Claim C7: for every combination of present and absent facet analyses and
profiles the detector never raises, and its output is exactly the
concatenation of the per-rule segments in the fixed order transaction,
shard-creation, cross-shard, CPU hotspot, memory leak, memory hotspot, each
segment carrying only its own bottleneck type (so every applicable rule
fires and nothing is suppressed); with both profiles absent the result
consists of the scalability segments alone. -/
theorem identify_bottlenecks_ordering (ar : AnalysisResults) (cpu : Option CpuProfile)
    (mem : Option MemoryProfile) (th : ℚ) :
    ∃ l, identify_bottlenecks ar cpu mem th = .ok l ∧
      l = transaction_segment ar th ++ shard_creation_segment ar th ++
          cross_shard_segment ar th ++ cpu_segment cpu th ++
          memory_leak_segment mem th ++ memory_hotspot_segment mem ∧
      (∀ b ∈ transaction_segment ar th, b.type = "transaction_scalability") ∧
      (∀ b ∈ shard_creation_segment ar th, b.type = "shard_creation_scalability") ∧
      (∀ b ∈ cross_shard_segment ar th, b.type = "cross_shard_scalability") ∧
      (∀ b ∈ cpu_segment cpu th, b.type = "cpu_hotspot") ∧
      (∀ b ∈ memory_leak_segment mem th, b.type = "memory_leak") ∧
      (∀ b ∈ memory_hotspot_segment mem, b.type = "memory_hotspot") ∧
      (cpu = none → mem = none →
        l = transaction_segment ar th ++ shard_creation_segment ar th ++
            cross_shard_segment ar th ∧
        ∀ b ∈ l, b.type = "transaction_scalability" ∨
          b.type = "shard_creation_scalability" ∨ b.type = "cross_shard_scalability") := by
  refine ⟨_, identify_bottlenecks_eq ar cpu mem th, rfl,
    transaction_segment_type ar th, shard_creation_segment_type ar th,
    cross_shard_segment_type ar th, cpu_segment_type cpu th,
    memory_leak_segment_type mem th, memory_hotspot_segment_type mem, ?_⟩
  rintro rfl rfl
  refine ⟨by simp [cpu_segment, memory_leak_segment, memory_hotspot_segment], ?_⟩
  intro b hb
  simp only [cpu_segment, memory_leak_segment, memory_hotspot_segment,
    List.append_nil, List.mem_append] at hb
  rcases hb with (hb | hb) | hb
  · exact Or.inl (transaction_segment_type ar th b hb)
  · exact Or.inr (Or.inl (shard_creation_segment_type ar th b hb))
  · exact Or.inr (Or.inr (cross_shard_segment_type ar th b hb))

theorem identify_bottlenecks_ordering_witness :
    ∃ l, identify_bottlenecks
        ⟨some ⟨some ⟨[], [⟨100, 200, 1000, 800, 0.4⟩], 800, 1000, 900⟩⟩, none⟩
        none none 10 = .ok l ∧
      l = transaction_segment
            ⟨some ⟨some ⟨[], [⟨100, 200, 1000, 800, 0.4⟩], 800, 1000, 900⟩⟩, none⟩ 10 ++
          shard_creation_segment
            ⟨some ⟨some ⟨[], [⟨100, 200, 1000, 800, 0.4⟩], 800, 1000, 900⟩⟩, none⟩ 10 ++
          cross_shard_segment
            ⟨some ⟨some ⟨[], [⟨100, 200, 1000, 800, 0.4⟩], 800, 1000, 900⟩⟩, none⟩ 10 ∧
      ∀ b ∈ l, b.type = "transaction_scalability" ∨
        b.type = "shard_creation_scalability" ∨ b.type = "cross_shard_scalability" := by
  obtain ⟨l, h1, _, _, _, _, _, _, _, h9⟩ := identify_bottlenecks_ordering
    ⟨some ⟨some ⟨[], [⟨100, 200, 1000, 800, 0.4⟩], 800, 1000, 900⟩⟩, none⟩ none none 10
  obtain ⟨h2, h3⟩ := h9 rfl rfl
  exact ⟨l, h1, h2, h3⟩

/-- Claim C3: the detector emits one scalability bottleneck for a sample
exactly when `efficiency < 1 - threshold/100`, with severity `high` exactly
when `efficiency < 0.5` and `medium` otherwise, one bottleneck per
qualifying sample; at threshold 10 an efficiency of 0.4 yields exactly one
high bottleneck, 0.85 exactly one medium bottleneck, and 0.95 none, for
each facet type. -/
theorem scalability_rule_iff (ty : String) (th : ℚ) :
    (∀ e : ScalabilitySample, scalability_bottlenecks ty [e] th =
      if e.efficiency < 1 - th / 100 then
        [⟨ty, if e.efficiency < 1 / 2 then "high" else "medium"⟩] else []) ∧
    (∀ (e : ScalabilitySample) (rest : List ScalabilitySample),
      scalability_bottlenecks ty (e :: rest) th =
        scalability_bottlenecks ty [e] th ++ scalability_bottlenecks ty rest th) ∧
    identify_bottlenecks
      ⟨some ⟨some ⟨[], [⟨100, 200, 1000, 800, 0.4⟩], 800, 1000, 900⟩⟩, none⟩
      none none 10 = .ok [⟨"transaction_scalability", "high"⟩] ∧
    identify_bottlenecks
      ⟨some ⟨some ⟨[], [⟨100, 200, 1000, 800, 0.85⟩], 800, 1000, 900⟩⟩, none⟩
      none none 10 = .ok [⟨"transaction_scalability", "medium"⟩] ∧
    identify_bottlenecks
      ⟨some ⟨some ⟨[], [⟨100, 200, 1000, 800, 0.95⟩], 800, 1000, 900⟩⟩, none⟩
      none none 10 = .ok [] ∧
    identify_bottlenecks
      ⟨none, some ⟨some ⟨[], [⟨8, 16, 100, 40, 0.4⟩], 40, 100, 70⟩, none⟩⟩
      none none 10 = .ok [⟨"shard_creation_scalability", "high"⟩] ∧
    identify_bottlenecks
      ⟨none, some ⟨none, some ⟨[], [⟨8, 16, 100, 85, 0.85⟩], 85, 100, 92⟩⟩⟩
      none none 10 = .ok [⟨"cross_shard_scalability", "medium"⟩] := by
  have hsimp : ∀ (g : ℚ) (ar : AnalysisResults),
      identify_bottlenecks ar none none g = .ok
        (transaction_segment ar g ++ shard_creation_segment ar g ++
         cross_shard_segment ar g) := by
    intro g ar
    rw [identify_bottlenecks_eq]
    simp [cpu_segment, memory_leak_segment, memory_hotspot_segment]
  refine ⟨?_, ?_, ?_, ?_, ?_, ?_, ?_⟩
  · intro e
    by_cases h : e.efficiency < 1 - th / 100 <;>
      simp [scalability_bottlenecks, h]
  · intro e rest
    by_cases h : e.efficiency < 1 - th / 100 <;>
      simp [scalability_bottlenecks, h]
  · rw [hsimp]
    have h1 : (0.4 : ℚ) < 1 - 10 / 100 := by norm_num
    have h2 : (0.4 : ℚ) < 1 / 2 := by norm_num
    simp [transaction_segment, shard_creation_segment, cross_shard_segment,
          scalability_bottlenecks, h1, h2]
    norm_num
  · rw [hsimp]
    have h1 : (0.85 : ℚ) < 1 - 10 / 100 := by norm_num
    have h2 : ¬ (0.85 : ℚ) < 1 / 2 := by norm_num
    simp [transaction_segment, shard_creation_segment, cross_shard_segment,
          scalability_bottlenecks, h1, h2]
    norm_num
  · rw [hsimp]
    have h1 : ¬ (0.95 : ℚ) < 1 - 10 / 100 := by norm_num
    simp [transaction_segment, shard_creation_segment, cross_shard_segment,
          scalability_bottlenecks, h1]
  · rw [hsimp]
    have h1 : (0.4 : ℚ) < 1 - 10 / 100 := by norm_num
    have h2 : (0.4 : ℚ) < 1 / 2 := by norm_num
    simp [transaction_segment, shard_creation_segment, cross_shard_segment,
          scalability_bottlenecks, h1, h2]
    norm_num
  · rw [hsimp]
    have h1 : (0.85 : ℚ) < 1 - 10 / 100 := by norm_num
    have h2 : ¬ (0.85 : ℚ) < 1 / 2 := by norm_num
    simp [transaction_segment, shard_creation_segment, cross_shard_segment,
          scalability_bottlenecks, h1, h2]
    norm_num

/-- Claim C4: with a heap summary present the detector emits the
`memory_leak` bottleneck exactly when `total_allocs - total_frees` is
positive and the leak ratio exceeds `threshold/100`, always exactly one and
always severity `high`; with `total_allocs = 0` no division happens (the
run still succeeds and emits nothing); at threshold 10, allocations 1000
with frees 700 yield exactly one high `memory_leak` and frees 950 yield
none. -/
theorem memory_leak_rule (allocs frees bytes : ℕ) (th : ℚ) :
    identify_bottlenecks ⟨none, none⟩ none (some ⟨some ⟨allocs, frees, bytes⟩, []⟩) th =
      .ok (if frees < allocs ∧
             th / 100 < ((allocs : ℚ) - (frees : ℚ)) / (allocs : ℚ)
           then [⟨"memory_leak", "high"⟩] else []) ∧
    (allocs = 0 →
      identify_bottlenecks ⟨none, none⟩ none (some ⟨some ⟨allocs, frees, bytes⟩, []⟩) th =
        .ok []) ∧
    identify_bottlenecks ⟨none, none⟩ none (some ⟨some ⟨1000, 700, 0⟩, []⟩) 10 =
      .ok [⟨"memory_leak", "high"⟩] ∧
    identify_bottlenecks ⟨none, none⟩ none (some ⟨some ⟨1000, 950, 0⟩, []⟩) 10 =
      .ok [] := by
  have key : ∀ (al fr bt : ℕ) (g : ℚ),
      identify_bottlenecks ⟨none, none⟩ none (some ⟨some ⟨al, fr, bt⟩, []⟩) g =
        .ok (memory_leak_flag ⟨al, fr, bt⟩ g) := by
    intro al fr bt g
    rw [identify_bottlenecks_eq]
    simp [transaction_segment, shard_creation_segment, cross_shard_segment,
          cpu_segment, memory_leak_segment, memory_hotspot_segment]
  refine ⟨?_, ?_, ?_, ?_⟩
  · rw [key]
    rfl
  · intro h0
    subst h0
    rw [key]
    simp [memory_leak_flag]
  · rw [key]
    have hc : (700 : ℕ) < 1000 ∧ (10 : ℚ) / 100 < ((1000 : ℚ) - 700) / 1000 := by
      constructor
      · norm_num
      · norm_num
    simp [memory_leak_flag, hc]
  · rw [key]
    have hc : ¬ (10 : ℚ) / 100 < ((1000 : ℚ) - 950) / 1000 := by norm_num
    simp [memory_leak_flag, hc]

theorem memory_leak_rule_witness :
    identify_bottlenecks ⟨none, none⟩ none (some ⟨some ⟨0, 5, 0⟩, []⟩) 10 = .ok [] :=
  (memory_leak_rule 0 5 0 10).2.1 rfl

theorem filterMap_guard_eq_filter_map {α β : Type} (p : α → Prop) [DecidablePred p]
    (g : α → β) (l : List α) :
    l.filterMap (fun a => if p a then some (g a) else none) =
      (l.filter (fun a => p a)).map g := by
  induction l with
  | nil => rfl
  | cons a t ih => by_cases h : p a <;> simp [h, ih]

/-- Claim C5: the detector considers exactly the first 5 CPU hotspots in
encounter order (an order-preserving filter of `take 5`, so entries beyond
the fifth never contribute), emits `cpu_hotspot` exactly when
`overhead > threshold`, with severity `high` when `overhead > 30`, `medium`
when `15 < overhead ≤ 30`, and `low` otherwise. -/
theorem cpu_hotspot_rule (hs : List CpuHotspot) (th : ℚ) :
    cpu_segment (some ⟨hs⟩) th =
      ((hs.take 5).filter (fun h => th < h.overhead)).map
        (fun h => ⟨"cpu_hotspot", cpu_hotspot_severity h.overhead⟩) ∧
    cpu_segment (some ⟨hs⟩) th = cpu_segment (some ⟨hs.take 5⟩) th ∧
    (∀ q : ℚ, 30 < q → cpu_hotspot_severity q = "high") ∧
    (∀ q : ℚ, 15 < q → q ≤ 30 → cpu_hotspot_severity q = "medium") ∧
    (∀ q : ℚ, q ≤ 15 → cpu_hotspot_severity q = "low") ∧
    identify_bottlenecks ⟨none, none⟩ (some ⟨hs⟩) none th =
      .ok (cpu_segment (some ⟨hs⟩) th) := by
  refine ⟨?_, ?_, ?_, ?_, ?_, ?_⟩
  · simp only [cpu_segment]
    exact filterMap_guard_eq_filter_map _ _ _
  · simp [cpu_segment, List.take_take]
  · intro q h
    simp [cpu_hotspot_severity, h]
  · intro q h1 h2
    simp [cpu_hotspot_severity, h1, not_lt.mpr h2]
  · intro q h
    have h30 : ¬ 30 < q := not_lt.mpr (h.trans (by norm_num))
    simp [cpu_hotspot_severity, not_lt.mpr h, h30]
  · rw [identify_bottlenecks_eq]
    simp [transaction_segment, shard_creation_segment, cross_shard_segment,
          memory_leak_segment, memory_hotspot_segment]

theorem cpu_hotspot_rule_witness :
    (30 : ℚ) < 42 ∧ cpu_hotspot_severity 42 = "high" :=
  ⟨by norm_num, (cpu_hotspot_rule [] 10).2.2.1 42 (by norm_num)⟩

/-- Claim C9: a leak block whose byte count parses but whose call stack
contains no frame matching the `by N: function` pattern still yields a
memory hotspot, with the function name set to the literal `"Unknown"` (the
block is not discarded). -/
theorem leak_block_unknown_function (bytesField stack : String) (n : ℕ)
    (hbytes : parse_int_commas bytesField = some n)
    (hnoframe : searchByFrame (pyStrip stack).data = none) :
    parse_leak_block bytesField stack = some ⟨n, "Unknown"⟩ := by
  simp [parse_leak_block, hbytes, hnoframe]

theorem leak_block_unknown_function_witness :
    parse_int_commas "1,024" = some 1024 ∧
    searchByFrame (pyStrip "   at 0x4005E1: main (prog.c:10)").data = none ∧
    parse_leak_block "1,024" "   at 0x4005E1: main (prog.c:10)" = some ⟨1024, "Unknown"⟩ :=
  ⟨by decide, by decide, leak_block_unknown_function _ _ _ (by decide) (by decide)⟩

/-- Claim C10: a line of the overhead-table region yields a hotspot only if
it splits into at least 5 whitespace-separated fields (`maxsplit=5`) and its
first field with `%` stripped parses as a number, the function name being
the last field; a line with fewer than 5 fields yields no hotspot even when
it begins with a valid percentage; blank lines and lines starting with `#`
are always skipped. -/
theorem cpu_profile_line_spec :
    (∀ line : String, pyStrip line = "" → parse_cpu_profile_line line = none) ∧
    (∀ line : String, startsWithChar '#' line = true →
      parse_cpu_profile_line line = none) ∧
    (∀ line : String, (pySplitWsMax 5 (pyStrip line)).length < 5 →
      parse_cpu_profile_line line = none) ∧
    (∀ (line : String) (h : CpuHotspot), parse_cpu_profile_line line = some h →
      pyStrip line ≠ "" ∧ startsWithChar '#' line = false ∧
      5 ≤ (pySplitWsMax 5 (pyStrip line)).length ∧
      ∃ p0, (pySplitWsMax 5 (pyStrip line)).head? = some p0 ∧
        pyFloat (stripChar '%' p0) = some h.overhead ∧
        (pySplitWsMax 5 (pyStrip line)).getLast? = some h.function) ∧
    (∀ (line p0 fn : String) (v : ℚ),
      pyStrip line ≠ "" → startsWithChar '#' line = false →
      5 ≤ (pySplitWsMax 5 (pyStrip line)).length →
      (pySplitWsMax 5 (pyStrip line)).head? = some p0 →
      (pySplitWsMax 5 (pyStrip line)).getLast? = some fn →
      pyFloat (stripChar '%' p0) = some v →
      parse_cpu_profile_line line = some ⟨v, fn⟩) ∧
    (∀ lines : List String,
      parse_cpu_profile_lines lines = lines.filterMap parse_cpu_profile_line) := by
  refine ⟨?_, ?_, ?_, ?_, ?_, fun _ => rfl⟩
  · intro line h
    simp [parse_cpu_profile_line, h]
  · intro line h
    simp [parse_cpu_profile_line, h]
  · intro line hlt
    by_cases hb : pyStrip line = "" ∨ startsWithChar '#' line = true
    · simp [parse_cpu_profile_line, hb]
    · simp [parse_cpu_profile_line, hb, Nat.not_le.mpr hlt]
  · intro line h heq
    simp only [parse_cpu_profile_line] at heq
    split at heq
    · cases heq
    next hb =>
      rw [not_or] at hb
      split at heq
      next hlen =>
        split at heq
        next p0 fn hp0 hfn =>
          split at heq
          next v hv =>
            cases heq
            exact ⟨hb.1, by simpa using hb.2, hlen, p0, hp0, hv, hfn⟩
          next hv => cases heq
        next hmatch => cases heq
      next hlen => cases heq
  · intro line p0 fn v h1 h2 hlen hp0 hfn hv
    simp [parse_cpu_profile_line, h1, h2, hlen, hp0, hfn, hv]

theorem cpu_profile_line_spec_witness :
    pyStrip "12% 100 200 libshardx.so shardx_apply" ≠ "" ∧
    startsWithChar '#' "12% 100 200 libshardx.so shardx_apply" = false ∧
    5 ≤ (pySplitWsMax 5 (pyStrip "12% 100 200 libshardx.so shardx_apply")).length ∧
    (pySplitWsMax 5 (pyStrip "12% 100 200 libshardx.so shardx_apply")).head? =
      some "12%" ∧
    (pySplitWsMax 5 (pyStrip "12% 100 200 libshardx.so shardx_apply")).getLast? =
      some "shardx_apply" ∧
    pyFloat (stripChar '%' "12%") = some 12 ∧
    parse_cpu_profile_line "12% 100 200 libshardx.so shardx_apply" =
      some ⟨12, "shardx_apply"⟩ ∧
    (pySplitWsMax 5 (pyStrip "33.3% shardx_apply")).length < 5 ∧
    parse_cpu_profile_line "33.3% shardx_apply" = none :=
  ⟨by decide, by decide, by decide, by decide, by decide, by decide,
   cpu_profile_line_spec.2.2.2.2.1 "12% 100 200 libshardx.so shardx_apply"
     "12%" "shardx_apply" 12 (by decide) (by decide) (by decide) (by decide)
     (by decide) (by decide),
   by decide,
   cpu_profile_line_spec.2.2.1 "33.3% shardx_apply" (by decide)⟩

theorem decodeThroughputSample_toVal (s : ThroughputSample) :
    decodeThroughputSample s.toVal = some s := rfl

theorem decodeScalabilitySample_toVal (e : ScalabilitySample) :
    decodeScalabilitySample e.toVal = some e := rfl

theorem decodeBottleneck_toVal (b : Bottleneck) :
    decodeBottleneck b.toVal = some b := rfl

theorem decodeChart_toVal (c : Chart) :
    decodeChart c.toVal = some c := rfl

theorem decodeEach_map {α : Type} (f : α → PyVal) (g : PyVal → Option α)
    (h : ∀ x, g (f x) = some x) : ∀ l : List α, decodeEach g (l.map f) = some l := by
  intro l
  induction l with
  | nil => rfl
  | cons a t ih => simp [decodeEach, h a, ih]

theorem decodeThroughputAnalysis_toVal (a : ThroughputAnalysis) :
    decodeThroughputAnalysis a.toVal = some a := by
  simp [ThroughputAnalysis.toVal, decodeThroughputAnalysis, lookupKey, decodeListOf,
    decodeEach_map _ _ decodeThroughputSample_toVal a.data,
    decodeEach_map _ _ decodeScalabilitySample_toVal a.scalability]

theorem decodeOpt_encode {α : Type} (f : α → PyVal) (g : PyVal → Option α)
    (hnn : ∀ x, ∃ d, f x = PyVal.dict d) (h : ∀ x, g (f x) = some x) :
    ∀ o : Option α, decodeOpt g (optVal f o) = some o := by
  intro o
  cases o with
  | none => rfl
  | some x =>
    obtain ⟨d, hd⟩ := hnn x
    show decodeOpt g (f x) = some (some x)
    rw [hd]
    simp only [decodeOpt]
    rw [← hd, h x]
    rfl

theorem decodeOpt_throughputAnalysis (o : Option ThroughputAnalysis) :
    decodeOpt decodeThroughputAnalysis (optVal ThroughputAnalysis.toVal o) = some o :=
  decodeOpt_encode _ _ (fun _ => ⟨_, rfl⟩) decodeThroughputAnalysis_toVal o

theorem decodeTransactionAnalysisResult_toVal (t : TransactionAnalysisResult) :
    decodeTransactionAnalysisResult t.toVal = some t := by
  simp [TransactionAnalysisResult.toVal, decodeTransactionAnalysisResult, lookupKey,
    decodeOpt_throughputAnalysis t.throughput_analysis]

theorem decodeShardingAnalysisResult_toVal (t : ShardingAnalysisResult) :
    decodeShardingAnalysisResult t.toVal = some t := by
  simp [ShardingAnalysisResult.toVal, decodeShardingAnalysisResult, lookupKey,
    decodeOpt_throughputAnalysis t.creation_analysis,
    decodeOpt_throughputAnalysis t.cross_shard_analysis]

theorem decodeOpt_transactionAnalysisResult (o : Option TransactionAnalysisResult) :
    decodeOpt decodeTransactionAnalysisResult
      (optVal TransactionAnalysisResult.toVal o) = some o :=
  decodeOpt_encode _ _ (fun _ => ⟨_, rfl⟩) decodeTransactionAnalysisResult_toVal o

theorem decodeOpt_shardingAnalysisResult (o : Option ShardingAnalysisResult) :
    decodeOpt decodeShardingAnalysisResult
      (optVal ShardingAnalysisResult.toVal o) = some o :=
  decodeOpt_encode _ _ (fun _ => ⟨_, rfl⟩) decodeShardingAnalysisResult_toVal o

/-- Claim C8: decoding the structured report recovers every field of the
original analysis exactly; the report binds the `timestamp` key to the
generation timestamp; and removing that one key gives back exactly the
serialized original, so the timestamp is the only difference (the source
mutates only a shallow copy, so the input dict itself is untouched, which
the pure embedding renders automatically). -/
theorem generate_json_report_roundtrip (a : FullAnalysisResults) (ts : String) :
    decodeFullAnalysisResults (generate_json_report a ts) = some a ∧
    lookupKey "timestamp" (generate_json_report a ts) = some (.str ts) ∧
    removeKey "timestamp" (generate_json_report a ts) = FullAnalysisResults.toVal a := by
  have hexp : generate_json_report a ts =
      FullAnalysisResults.toVal a ++ [("timestamp", .str ts)] := by
    simp [generate_json_report, FullAnalysisResults.toVal, dictSet]
  refine ⟨?_, ?_, ?_⟩
  · rw [hexp]
    simp [FullAnalysisResults.toVal, decodeFullAnalysisResults, lookupKey, decodeListOf,
      decodeOpt_transactionAnalysisResult a.transaction_analysis,
      decodeOpt_shardingAnalysisResult a.sharding_analysis,
      decodeEach_map _ _ decodeBottleneck_toVal a.bottlenecks,
      decodeEach_map _ _ decodeChart_toVal a.charts]
  · rw [hexp]
    simp [FullAnalysisResults.toVal, lookupKey]
  · rw [hexp]
    simp [FullAnalysisResults.toVal, removeKey]

theorem scalability_rule_iff_witness :
    identify_bottlenecks
      ⟨some ⟨some ⟨[], [⟨100, 200, 1000, 800, 0.4⟩], 800, 1000, 900⟩⟩, none⟩
      none none 10 = .ok [⟨"transaction_scalability", "high"⟩] :=
  (scalability_rule_iff "transaction_scalability" 10).2.2.1

theorem analyze_single_sample_witness :
    analyze_transaction_performance (some ⟨some [⟨100, 1000⟩]⟩) =
      .ok (some ⟨some ⟨[⟨100, 1000⟩], [], 1000, 1000, 1000⟩⟩) ∧
    scalability_of [⟨100, 1000⟩] = .ok [] ∧
    scalability_of [] = .ok [] ∧
    analyze_transaction_performance (some ⟨some []⟩) = .error .valueError :=
  analyze_single_sample ⟨100, 1000⟩

theorem generate_json_report_roundtrip_witness :
    decodeFullAnalysisResults
      (generate_json_report ⟨none, none, [⟨"memory_leak", "high"⟩], []⟩ "2026-10-12") =
      some ⟨none, none, [⟨"memory_leak", "high"⟩], []⟩ ∧
    lookupKey "timestamp"
      (generate_json_report ⟨none, none, [⟨"memory_leak", "high"⟩], []⟩ "2026-10-12") =
      some (.str "2026-10-12") ∧
    removeKey "timestamp"
      (generate_json_report ⟨none, none, [⟨"memory_leak", "high"⟩], []⟩ "2026-10-12") =
      FullAnalysisResults.toVal ⟨none, none, [⟨"memory_leak", "high"⟩], []⟩ :=
  generate_json_report_roundtrip ⟨none, none, [⟨"memory_leak", "high"⟩], []⟩ "2026-10-12"
